import Mathlib

/-!
Verification of `edward/models/models.py`: model adapters (PyMC3, Stan) and
the `Variational` container.  Numeric values (log-densities, samples) are
embedded as rationals; a tensor of shape (batch x shape) is a list of rows.
External engines (PyMC3's compiled `logp`, pystan's compiled model) are
abstract function parameters, since the repository only calls into them.
-/

namespace Edward

/-- A flattened sample vector (one row of `zs`). -/
abbrev Row := List Rat

/-- A batch of S flattened sample vectors (`zs`, shape S x num_vars). -/
abbrev Batch := List Row

/-- A tensor of dimensions (batch x shape), as used by the variational layers. -/
abbrev Tensor := List (List Rat)

/-- Observed data dictionary for the Stan data block (`xs` in `StanModel`). -/
abbrev StanData := List (String × List Rat)

/-! ## PyMC3Model (models.py lines 23-78)

`__init__` derives `self.logp = bij.mapf(model.fastlogp)`, a callable from a
flattened vector to a scalar log-density, and `self.num_vars`.  We embed the
adapter as the record of those two construction results. -/

structure PyMC3Model where
  num_vars : Nat
  logp : Row → Rat

/-- Embedding of `PyMC3Model._py_log_prob` (lines 72-78): allocate an S-vector
and set entry `s` to `self.logp(zs[s, :])` for `s` in `range(S)`. -/
def PyMC3Model.py_log_prob (m : PyMC3Model) (zs : Batch) : List Rat :=
  (List.range zs.length).map (fun s => m.logp (zs.getD s []))

/-! ## StanModel (models.py lines 120-210) -/

/-- The pystan compiled model object (`self.model`), holding exactly the
members `StanModel` reads: `par_dims`, `model_pars`, `unconstrain_pars` and
`log_prob` (called with `adjust_transform=False`). -/
structure StanEngine where
  par_dims : List (List Nat)
  model_pars : List String
  unconstrain_pars : List (String × List Rat) → List Rat
  stan_log_prob : List Rat → Bool → Rat

/-- Size contribution of one parameter in `_initialize` (line 176):
`sum(dim) if sum(dim) != 0 else 1`. -/
def parSize (dim : List Nat) : Nat :=
  if dim.sum ≠ 0 then dim.sum else 1

/-- Embedding of `self.num_vars = sum([sum(dim) if sum(dim) != 0 else 1
for dim in self.model.par_dims])` (lines 176-177). -/
def stanNumVars (dims : List (List Nat)) : Nat :=
  (dims.map parSize).sum

/-- Embedding of the `z_dict` construction loop of `_py_log_prob`
(lines 196-205), iterating `zip(par_dims, model_pars)` with a running index
into the flat row `z`.  A scalar parameter (`sum(dim) == 0`) reads `z[idx]`,
an out-of-range index being an `IndexError` (`none`).  Any other parameter
takes the numpy slice `z[idx:idx+elems]` (whose length is clamped to what is
available) and reshapes it to `dim`, which succeeds exactly when the slice
length equals the product of `dim`. -/
def stanDecodeGo : List (List Nat × String) → Row → Nat → Option (List (String × List Rat))
  | [], _, _ => some []
  | (dim, par) :: rest, z, idx =>
    let elems := dim.sum
    if elems = 0 then
      if h : idx < z.length then
        (stanDecodeGo rest z (idx + 1)).map (fun d => (par, [z.get ⟨idx, h⟩]) :: d)
      else
        none
    else
      let block := (z.drop idx).take elems
      if block.length = dim.prod then
        (stanDecodeGo rest z (idx + elems)).map (fun d => (par, block) :: d)
      else
        none

/-- One row's `z_dict`, built from `zip(self.model.par_dims,
self.model.model_pars)` starting at index 0. -/
def stanDecodeRow (dims : List (List Nat)) (pars : List String) (z : Row) : Option (List (String × List Rat)) :=
  stanDecodeGo (dims.zip pars) z 0

/-- One row's log-density in `StanModel._py_log_prob` (lines 207-208):
`self.model.log_prob(self.model.unconstrain_pars(z_dict),
adjust_transform=False)`. -/
def stanRowVal (e : StanEngine) (z : Row) : Option Rat :=
  (stanDecodeRow e.par_dims e.model_pars z).map
    (fun d => e.stan_log_prob (e.unconstrain_pars d) false)

/-- Embedding of `StanModel._py_log_prob` (lines 180-210): evaluate every row
in order; an exception on any row aborts the whole call (no partial result). -/
def stanPyLogProb (e : StanEngine) : Batch → Option (List Rat)
  | [] => some []
  | z :: rest =>
    match stanRowVal e z with
    | none => none
    | some v =>
      match stanPyLogProb e rest with
      | none => none
      | some l => some (v :: l)

/-- The mutable state of a `StanModel` adapter.  `src` records which of the
two attributes `self.file` / `self.model_code` exists (`__init__` sets exactly
one); `model` and `num_vars` are absent (`none`) until `_initialize`. -/
structure StanState where
  src : String ⊕ String
  flag_init : Bool
  model : Option StanEngine
  num_vars : Option Nat

/-- Embedding of `StanModel.__init__` (lines 123-138): keep `file` when it is
not `None` (ignoring `model_code`), else keep `model_code`, else raise. -/
def stanInit (file model_code : Option String) : Option StanState :=
  match file with
  | some f => some { src := Sum.inl f, flag_init := false, model := none, num_vars := none }
  | none =>
    match model_code with
    | some c => some { src := Sum.inr c, flag_init := false, model := none, num_vars := none }
    | none => none

/-- Embedding of `StanModel._initialize` (lines 167-178): instantiate the
engine from the stored source and the observed data `xs` (the external
`pystan.stan` call is the abstract `compile`), derive `num_vars` from the
engine's `par_dims`, and set the flag. -/
def StanState.setup (compile : String ⊕ String → StanData → StanEngine)
    (st : StanState) (xs : StanData) : StanState :=
  let engine := compile st.src xs
  { st with model := some engine, num_vars := some (stanNumVars engine.par_dims),
            flag_init := true }

/-- State effect of one `StanModel.log_prob` call (lines 162-163): initialize
exactly when `flag_init` is `False`, otherwise leave the state untouched. -/
def StanState.logProbState (compile : String ⊕ String → StanData → StanEngine)
    (st : StanState) (xs : StanData) : StanState :=
  if st.flag_init = false then st.setup compile xs else st

/-- Full effect of one `StanModel.log_prob` call: the state transition plus
the value computed by the wrapped `_py_log_prob` on the (possibly just)
initialized engine. -/
def StanState.logProbCall (compile : String ⊕ String → StanData → StanEngine)
    (st : StanState) (xs : StanData) (zs : Batch) : StanState × Option (List Rat) :=
  let st2 := st.logProbState compile xs
  (st2,
    match st2.model with
    | some e => stanPyLogProb e zs
    | none => none)

/-- State after a sequence of `log_prob` calls with observed data bindings
`calls`, in order. -/
def stanRun (compile : String ⊕ String → StanData → StanEngine)
    (st : StanState) (calls : List StanData) : StanState :=
  calls.foldl (fun s xs => s.logProbState compile xs) st

/-! ## Variational container (models.py lines 213-325)

A layer is any distribution object; the container reads the listed members.
`has_reparam` and `has_entropy` embed the class-dictionary capability probes
`reparam in layer.class dict` / `entropy in layer.class dict`, and
`is_normal_layer` embeds `isinstance(layer, Normal)`. -/

structure Layer where
  shape : List Nat
  num_vars : Nat
  num_params : Nat
  is_multivariate : Bool
  has_reparam : Bool
  has_entropy : Bool
  is_normal_layer : Bool
  sample : Nat → Tensor
  log_prob : Tensor → List Rat
  entropy : Rat

@[ext]
structure Variational where
  layers : List Layer
  shape : List (List Nat)
  num_vars : Nat
  num_params : Nat
  is_reparam : Bool
  is_normal : Bool
  is_entropy : Bool
  is_multivariate : List Bool

/-- Embedding of `Variational.__init__` (lines 215-237).  The `get_session()`
call touches only the external graph runtime and carries no adapter state.
With `layers=None` every aggregate starts empty / zero / vacuously true;
otherwise each aggregate is computed as the comprehension over `layers`. -/
def Variational.init (layers : Option (List Layer)) : Variational :=
  match layers with
  | none =>
    { layers := [], shape := [], num_vars := 0, num_params := 0,
      is_reparam := true, is_normal := true, is_entropy := true,
      is_multivariate := [] }
  | some ls =>
    { layers := ls
      shape := ls.map (fun l => l.shape)
      num_vars := (ls.map (fun l => l.num_vars)).sum
      num_params := (ls.map (fun l => l.num_params)).sum
      is_reparam := ls.all (fun l => l.has_reparam)
      is_normal := ls.all (fun l => l.is_normal_layer)
      is_entropy := ls.all (fun l => l.has_entropy)
      is_multivariate := ls.map (fun l => l.is_multivariate) }

/-- The empty container `Variational()`. -/
def Variational.empty : Variational :=
  Variational.init none

/-- Embedding of `Variational.add` (lines 249-264): append the layer and
update every aggregate field. -/
def Variational.add (v : Variational) (layer : Layer) : Variational :=
  { layers := v.layers ++ [layer]
    shape := v.shape ++ [layer.shape]
    num_vars := v.num_vars + layer.num_vars
    num_params := v.num_params + layer.num_params
    is_reparam := v.is_reparam && layer.has_reparam
    is_entropy := v.is_entropy && layer.has_entropy
    is_normal := v.is_normal && layer.is_normal_layer
    is_multivariate := v.is_multivariate ++ [layer.is_multivariate] }

/-- A sequence of `add` calls, in order. -/
def Variational.addAll (v : Variational) (ls : List Layer) : Variational :=
  ls.foldl Variational.add v

/-- A Python value that is either a bare object or a list of objects, as
returned by `Variational.sample` (and fed to `Variational.log_prob`). -/
inductive PyResult (α : Type) where
  | single (x : α)
  | multiple (xs : List α)
deriving DecidableEq

/-- Embedding of `Variational.sample` (lines 266-288): collect per-layer
samples in layer order; a length-1 collection is unwrapped to its sole
element. -/
def Variational.sample (v : Variational) (size : Nat) : PyResult Tensor :=
  let samples := v.layers.map (fun layer => layer.sample size)
  match samples with
  | [s] => PyResult.single s
  | other => PyResult.multiple other

/-- Addition of two tf vectors of shapes `[n]` and `[m]` (the `log_prob +=`
on line 316): elementwise when the lengths agree, numpy-style broadcast when
either side has length 1, and a shape error otherwise. -/
def tfAddVec (a b : List Rat) : Option (List Rat) :=
  if a.length = b.length then
    some (List.zipWith (fun x y => x + y) a b)
  else if a.length = 1 then
    some (b.map (fun y => a.headD 0 + y))
  else if b.length = 1 then
    some (a.map (fun x => x + b.headD 0))
  else
    none

/-- The accumulation loop of `Variational.log_prob` (lines 315-316): layers
are enumerated and `xs[l]` indexed per layer, so running out of inputs is an
`IndexError` (`none`) while surplus inputs are ignored. -/
def accumLogProb : List Layer → List Tensor → List Rat → Option (List Rat)
  | [], _, acc => some acc
  | _ :: _, [], _ => none
  | layer :: rest, t :: trest, acc =>
    match tfAddVec acc (layer.log_prob t) with
    | none => none
    | some acc2 => accumLogProb rest trest acc2

/-- Embedding of `Variational.log_prob` (lines 290-318).  With exactly one
layer the input is handed to that layer unchanged (a list input there is a
dynamically mistyped call, `none`).  Otherwise the input must be a non-empty
list: the batch size is the leading dimension of `xs[0]` and the accumulator
starts as `tf.zeros([n_minibatch])`. -/
def Variational.log_prob (v : Variational) (xs : PyResult Tensor) : Option (List Rat) :=
  match v.layers, xs with
  | [layer], PyResult.single t => some (layer.log_prob t)
  | [_], PyResult.multiple _ => none
  | layers, PyResult.multiple (t0 :: ts) =>
    accumLogProb layers (t0 :: ts) (List.replicate t0.length 0)
  | _, _ => none

/-- Embedding of `Variational.entropy` (lines 320-325): fold `+` over the
per-layer entropies starting from the constant 0. -/
def Variational.entropy (v : Variational) : Rat :=
  v.layers.foldl (fun out layer => out + layer.entropy) 0

/-! ## Helper lemmas -/

lemma addAll_fields (v : Variational) (ls : List Layer) :
    v.addAll ls =
      { layers := v.layers ++ ls
        shape := v.shape ++ ls.map (fun l => l.shape)
        num_vars := v.num_vars + (ls.map (fun l => l.num_vars)).sum
        num_params := v.num_params + (ls.map (fun l => l.num_params)).sum
        is_reparam := v.is_reparam && ls.all (fun l => l.has_reparam)
        is_normal := v.is_normal && ls.all (fun l => l.is_normal_layer)
        is_entropy := v.is_entropy && ls.all (fun l => l.has_entropy)
        is_multivariate := v.is_multivariate ++ ls.map (fun l => l.is_multivariate) } := by
  induction ls generalizing v with
  | nil => simp [Variational.addAll]
  | cons l ls ih =>
    rw [Variational.addAll, List.foldl_cons]
    rw [show List.foldl Variational.add (v.add l) ls = (v.add l).addAll ls from rfl, ih]
    simp [Variational.add, Variational.mk.injEq, List.append_assoc, Nat.add_assoc,
      Bool.and_assoc]

lemma foldl_add_entropy (ls : List Layer) (a : Rat) :
    ls.foldl (fun out layer => out + layer.entropy) a = a + (ls.map Layer.entropy).sum := by
  induction ls generalizing a with
  | nil => simp
  | cons l ls ih => simp [List.foldl_cons, ih, add_assoc]

/-! ## Claims -/

/-- Claim C1, counterexample: supplying BOTH `file` and `model_code` does not
make `StanModel.__init__` fail; the `elif` chain silently takes `file`. -/
theorem stanInit_both_sources_counterexample :
    (some "f" : Option String).isSome = true ∧
    (some "c" : Option String).isSome = true ∧
    (stanInit (some "f") (some "c")).isSome = true :=
  ⟨rfl, rfl, rfl⟩

/-- Claim C1, amended: `StanModel` construction succeeds iff at least one of
`file` and `model_code` is supplied; construction fails only when neither is
supplied, and when both are supplied the file reference wins and the inline
model code is ignored. -/
theorem stanInit_success_iff_some_source (f mc : Option String) :
    (stanInit f mc).isSome = (f.isSome || mc.isSome) ∧
    (∀ file code : String, stanInit (some file) (some code) = stanInit (some file) none) := by
  constructor
  · cases f <;> cases mc <;> rfl
  · intro file code
    rfl

/-- Claim C4: after any sequence of `add` calls starting from the empty
container, every aggregate field equals the corresponding fold over the layer
sequence (shapes and multivariate flags as per-layer lists, `num_vars` and
`num_params` as sums, the capability flags as AND-reductions, vacuously true
when no layer was added); and each single `add` updates `num_vars` additively
and `is_entropy` conjunctively. -/
theorem variational_add_aggregate_fold (ls : List Layer) :
    (Variational.empty.addAll ls).layers = ls ∧
    (Variational.empty.addAll ls).shape = ls.map (fun l => l.shape) ∧
    (Variational.empty.addAll ls).num_vars = (ls.map (fun l => l.num_vars)).sum ∧
    (Variational.empty.addAll ls).num_params = (ls.map (fun l => l.num_params)).sum ∧
    (Variational.empty.addAll ls).is_multivariate = ls.map (fun l => l.is_multivariate) ∧
    (Variational.empty.addAll ls).is_reparam = ls.all (fun l => l.has_reparam) ∧
    (Variational.empty.addAll ls).is_entropy = ls.all (fun l => l.has_entropy) ∧
    (Variational.empty.addAll ls).is_normal = ls.all (fun l => l.is_normal_layer) ∧
    (∀ (v : Variational) (layer : Layer),
      (v.add layer).num_vars = v.num_vars + layer.num_vars ∧
      (v.add layer).is_entropy = (v.is_entropy && layer.has_entropy)) := by
  rw [addAll_fields]
  refine ⟨?_, ?_, ?_, ?_, ?_, ?_, ?_, ?_, ?_⟩
  all_goals simp [Variational.empty, Variational.init, Variational.add]

/-- Claim C10: constructing `Variational(layers=[L1,...,Ln])` yields exactly
the same container, field for field, as constructing `Variational()` and then
calling `add(L1), ..., add(Ln)` in order. -/
theorem variational_ctor_equals_adds (ls : List Layer) :
    Variational.init (some ls) = Variational.empty.addAll ls := by
  rw [addAll_fields]
  simp [Variational.empty, Variational.init, Variational.mk.injEq]

/-- Claim C9: `Variational.entropy` is the sum of the per-layer entropies in
layer order, starting from the additive identity 0; on the empty container it
is 0. -/
theorem variational_entropy_sum (v : Variational) :
    v.entropy = (v.layers.map Layer.entropy).sum ∧ Variational.empty.entropy = 0 := by
  constructor
  · rw [Variational.entropy, foldl_add_entropy, zero_add]
  · rfl

/-- Claim C5: a one-layer container unwraps both `sample` and `log_prob` to
the bare layer result, while a container with two or more layers returns the
ordered list of per-layer sample results. -/
theorem variational_single_layer_unwrap (v w : Variational) (l : Layer)
    (hv : v.layers = [l]) (hw : 2 ≤ w.layers.length) (s : Nat) (t : Tensor) :
    v.sample s = PyResult.single (l.sample s) ∧
    v.log_prob (PyResult.single t) = some (l.log_prob t) ∧
    w.sample s = PyResult.multiple (w.layers.map (fun layer => layer.sample s)) := by
  refine ⟨?_, ?_, ?_⟩
  · rw [Variational.sample, hv]
    rfl
  · rcases v with ⟨vl, vsh, vnv, vnp, vr, vn, ve, vm⟩
    simp only at hv
    subst hv
    rfl
  · rcases w with ⟨wl, wsh, wnv, wnp, wr, wn, we, wm⟩
    simp only at hw ⊢
    match wl, hw with
    | l1 :: l2 :: rest, _ => rfl

/-- Lemma: once the flag is set, a `log_prob` call never changes the adapter
state again, whatever observed data it passes. -/
lemma stanRun_initialized (compile : String ⊕ String → StanData → StanEngine)
    (st : StanState) (h : st.flag_init = true) (calls : List StanData) :
    stanRun compile st calls = st := by
  induction calls with
  | nil => rfl
  | cons xs rest ih =>
    rw [stanRun, List.foldl_cons]
    rw [show StanState.logProbState compile st xs = st from by
      rw [StanState.logProbState, h]; rfl]
    exact ih

/-- Lemma: the fields a fresh `StanModel.__init__` leaves unset. -/
lemma stanInit_fresh (f mc : Option String) (st : StanState)
    (h : stanInit f mc = some st) :
    st.flag_init = false ∧ st.model = none ∧ st.num_vars = none := by
  cases f with
  | some a =>
    rw [stanInit] at h
    cases h
    exact ⟨rfl, rfl, rfl⟩
  | none =>
    cases mc with
    | some b =>
      rw [stanInit] at h
      cases h
      exact ⟨rfl, rfl, rfl⟩
    | none =>
      rw [stanInit] at h
      cases h

/-- Claim C6: across any sequence of `log_prob` calls on a freshly constructed
`StanModel`, the engine is instantiated exactly once, namely on the first call
and with that call's observed data; every later call leaves the state (and so
the data binding captured in the compiled engine) untouched. -/
theorem stan_single_initialization (compile : String ⊕ String → StanData → StanEngine)
    (f mc : Option String) (st0 : StanState) (h0 : stanInit f mc = some st0)
    (xs0 : StanData) (rest : List StanData) :
    st0.flag_init = false ∧
    stanRun compile st0 (xs0 :: rest) = st0.setup compile xs0 ∧
    (st0.setup compile xs0).flag_init = true ∧
    (st0.setup compile xs0).model = some (compile st0.src xs0) := by
  obtain ⟨hflag, -, -⟩ := stanInit_fresh f mc st0 h0
  refine ⟨hflag, ?_, rfl, rfl⟩
  rw [stanRun, List.foldl_cons]
  rw [show StanState.logProbState compile st0 xs0 = st0.setup compile xs0 from by
    rw [StanState.logProbState, hflag]; rfl]
  exact stanRun_initialized compile _ rfl rest

/-- Concrete engine and state for exercising the Stan adapter lifecycle. -/
def eRun : StanEngine :=
  { par_dims := [[]], model_pars := ["theta"],
    unconstrain_pars := fun d => (d.map Prod.snd).flatten,
    stan_log_prob := fun v _ => v.sum }

def compileRun : String ⊕ String → StanData → StanEngine :=
  fun _ _ => eRun

def stModelFile : StanState :=
  { src := Sum.inl "model.stan", flag_init := false, model := none, num_vars := none }

/-- Witness for C6 at a concrete adapter and a two-call sequence. -/
theorem stan_single_initialization_witness :
    stanInit (some "model.stan") none = some stModelFile ∧
    (stModelFile.flag_init = false ∧
     stanRun compileRun stModelFile ([("y", [1])] :: [[("y", [2])]]) =
       stModelFile.setup compileRun [("y", [1])] ∧
     (stModelFile.setup compileRun [("y", [1])]).flag_init = true ∧
     (stModelFile.setup compileRun [("y", [1])]).model =
       some (compileRun stModelFile.src [("y", [1])])) :=
  ⟨rfl, stan_single_initialization compileRun (some "model.stan") none stModelFile rfl
    [("y", [1])] [[("y", [2])]]⟩

/-- Concrete engine whose single parameter has the declared dimension list
`[0]`: non-empty, but summing to zero. -/
def eParamZero : StanEngine :=
  { par_dims := [[0]], model_pars := ["w"],
    unconstrain_pars := fun d => (d.map Prod.snd).flatten,
    stan_log_prob := fun v _ => v.sum }

def compileParamZero : String ⊕ String → StanData → StanEngine :=
  fun _ _ => eParamZero

def stParamZero : StanState :=
  { src := Sum.inl "m", flag_init := false, model := none, num_vars := none }

/-- Claim C7, counterexample: for a parameter with declared dimensions `[0]`
(a non-empty dimension list), the code computes `num_vars = 1` because it
branches on `sum(dim) != 0`, while the claim's formula (empty list counts 1,
any other parameter counts the sum/product of its dimensions) yields 0. -/
theorem stan_num_vars_counterexample :
    (stParamZero.setup compileParamZero []).num_vars = some 1 ∧
    ((([[0]] : List (List Nat)).map (fun dim => if dim = [] then 1 else dim.sum)).sum = 0) ∧
    ((([[0]] : List (List Nat)).map (fun dim => if dim = [] then 1 else dim.prod)).sum = 0) := by
  refine ⟨?_, by decide, by decide⟩
  decide

/-- Claim C7, amended: before initialization `num_vars` is `None`; after
initialization it equals the sum over the engine's declared parameters of
`sum(dim)` when that sum is non-zero and 1 otherwise (so scalars — and any
parameter whose dimensions sum to zero — contribute 1). -/
theorem stan_num_vars_formula (compile : String ⊕ String → StanData → StanEngine)
    (f mc : Option String) (st0 : StanState) (h0 : stanInit f mc = some st0)
    (xs : StanData) :
    st0.num_vars = none ∧
    (st0.setup compile xs).num_vars =
      some (((compile st0.src xs).par_dims.map
        (fun dim => if dim.sum ≠ 0 then dim.sum else 1)).sum) := by
  obtain ⟨-, -, hnv⟩ := stanInit_fresh f mc st0 h0
  exact ⟨hnv, rfl⟩

/-- Witness for the amended C7 at a concrete adapter. -/
theorem stan_num_vars_formula_witness :
    stanInit (some "m") none = some stParamZero ∧
    (stParamZero.num_vars = none ∧
     (stParamZero.setup compileParamZero []).num_vars =
       some (((compileParamZero stParamZero.src []).par_dims.map
         (fun dim => if dim.sum ≠ 0 then dim.sum else 1)).sum)) :=
  ⟨rfl, stan_num_vars_formula compileParamZero (some "m") none stParamZero rfl []⟩

/-- Concrete layers used to exercise the container claims: `layA` sums each
row, `layB` multiplies each row. -/
def layA : Layer :=
  { shape := [3], num_vars := 3, num_params := 6, is_multivariate := false,
    has_reparam := true, has_entropy := true, is_normal_layer := true,
    sample := fun s => List.replicate s [1, 1, 1],
    log_prob := fun t => t.map (fun row => row.sum),
    entropy := 5 }

def layB : Layer :=
  { shape := [2], num_vars := 2, num_params := 4, is_multivariate := false,
    has_reparam := true, has_entropy := false, is_normal_layer := false,
    sample := fun s => List.replicate s [2, 2],
    log_prob := fun t => t.map (fun row => row.prod),
    entropy := 7 }

def vOne : Variational :=
  Variational.init (some [layA])

def wTwo : Variational :=
  Variational.init (some [layA, layB])

/-- Witness for C5 at a one-layer and a two-layer container. -/
theorem variational_single_layer_unwrap_witness :
    vOne.layers = [layA] ∧ 2 ≤ wTwo.layers.length ∧
    (vOne.sample 2 = PyResult.single (layA.sample 2) ∧
     vOne.log_prob (PyResult.single [[1, 2, 3], [4, 5, 6]]) =
       some (layA.log_prob [[1, 2, 3], [4, 5, 6]]) ∧
     wTwo.sample 2 = PyResult.multiple (wTwo.layers.map (fun layer => layer.sample 2))) :=
  ⟨rfl, by decide,
    variational_single_layer_unwrap vOne wTwo layA rfl (by decide) 2 [[1, 2, 3], [4, 5, 6]]⟩

/-- Lemma: `getD` distributes over elementwise addition of equal-length
vectors (out-of-range positions read the default 0 on both sides). -/
lemma getD_zipWith_add (a b : List Rat) (h : a.length = b.length) (i : Nat) :
    (List.zipWith (fun x y => x + y) a b).getD i 0 = a.getD i 0 + b.getD i 0 := by
  induction a generalizing b i with
  | nil =>
    cases b with
    | nil => simp
    | cons y ys => simp at h
  | cons x xs ih =>
    cases b with
    | nil => simp at h
    | cons y ys =>
      cases i with
      | zero => simp
      | succ j =>
        simp only [List.zipWith_cons_cons, List.getD_cons_succ]
        exact ih ys (by simpa using h) j

/-- Lemma: every position of `List.replicate n 0` reads 0 under `getD`. -/
lemma getD_replicate_zero (n i : Nat) : (List.replicate n (0 : Rat)).getD i 0 = 0 := by
  induction n generalizing i with
  | zero => simp
  | succ m ih =>
    cases i with
    | zero => simp [List.replicate_succ]
    | succ j => simp [List.replicate_succ, ih]

/-- Lemma: the accumulation loop of `Variational.log_prob` succeeds on
matching batch sizes and computes, at every position, the accumulator entry
plus the sum of the per-layer log-density entries. -/
lemma accumLogProb_spec (layers : List Layer) (ts : List Tensor) (n : Nat)
    (acc : List Rat) (hacc : acc.length = n) (hts : layers.length ≤ ts.length)
    (hout : ∀ p ∈ layers.zip ts, (p.1.log_prob p.2).length = n) :
    ∃ r, accumLogProb layers ts acc = some r ∧ r.length = n ∧
      ∀ i, r.getD i 0 = acc.getD i 0 +
        ((layers.zip ts).map (fun p => (p.1.log_prob p.2).getD i 0)).sum := by
  induction layers generalizing ts acc with
  | nil => exact ⟨acc, rfl, hacc, fun i => by simp⟩
  | cons L Ls ih =>
    cases ts with
    | nil => simp at hts
    | cons t ts2 =>
      have hL : (L.log_prob t).length = n := hout (L, t) (by simp)
      have hadd : tfAddVec acc (L.log_prob t) =
          some (List.zipWith (fun x y => x + y) acc (L.log_prob t)) := by
        rw [tfAddVec, if_pos (hacc.trans hL.symm)]
      have hlen2 : (List.zipWith (fun x y => x + y) acc (L.log_prob t)).length = n := by
        rw [List.length_zipWith, hacc, hL, Nat.min_self]
      obtain ⟨r, hr, hrlen, hri⟩ := ih ts2 _ hlen2 (by simpa using hts)
        (fun p hp => hout p (by simp [List.zip_cons_cons, hp]))
      refine ⟨r, ?_, hrlen, fun i => ?_⟩
      · rw [accumLogProb, hadd]
        exact hr
      · rw [hri i, getD_zipWith_add acc _ (hacc.trans hL.symm) i]
        simp [List.zip_cons_cons, add_assoc]

/-- Claim C3: on a container with two or more layers and one same-batch input
per layer, `log_prob` returns the length-n vector (n the leading dimension of
the first input) whose every entry is the sum over layers of that layer's
per-entry log-density, i.e. the zero-initialized elementwise accumulation in
layer order. -/
theorem variational_log_prob_sum (v : Variational) (t0 : Tensor) (ts : List Tensor)
    (hmulti : 2 ≤ v.layers.length)
    (hcount : v.layers.length = (t0 :: ts).length)
    (hout : ∀ p ∈ v.layers.zip (t0 :: ts), (p.1.log_prob p.2).length = t0.length) :
    ∃ r, v.log_prob (PyResult.multiple (t0 :: ts)) = some r ∧
      r.length = t0.length ∧
      ∀ i, r.getD i 0 =
        ((v.layers.zip (t0 :: ts)).map (fun p => (p.1.log_prob p.2).getD i 0)).sum := by
  obtain ⟨r, hr, hrlen, hri⟩ := accumLogProb_spec v.layers (t0 :: ts) t0.length
    (List.replicate t0.length 0) (List.length_replicate _ _) (le_of_eq hcount) hout
  refine ⟨r, ?_, hrlen, fun i => ?_⟩
  · rcases v with ⟨vl, vsh, vnv, vnp, vr, vn, ve, vm⟩
    simp only at hmulti hr ⊢
    match vl, hmulti with
    | l1 :: l2 :: rest, _ => exact hr
  · rw [hri i, getD_replicate_zero, zero_add]

/-- Witness for C3 at a two-layer container over a batch of two rows per
layer: the result entries are the sums of the per-layer entries. -/
theorem variational_log_prob_sum_witness :
    2 ≤ wTwo.layers.length ∧
    wTwo.layers.length = ([[[1, 2, 3], [4, 5, 6]], [[1, 2], [3, 4]]] : List Tensor).length ∧
    (∀ p ∈ wTwo.layers.zip ([[[1, 2, 3], [4, 5, 6]], [[1, 2], [3, 4]]] : List Tensor),
      (p.1.log_prob p.2).length = ([[1, 2, 3], [4, 5, 6]] : Tensor).length) ∧
    (∃ r, wTwo.log_prob
        (PyResult.multiple ([[[1, 2, 3], [4, 5, 6]], [[1, 2], [3, 4]]] : List Tensor)) = some r ∧
      r.length = ([[1, 2, 3], [4, 5, 6]] : Tensor).length ∧
      ∀ i, r.getD i 0 =
        ((wTwo.layers.zip ([[[1, 2, 3], [4, 5, 6]], [[1, 2], [3, 4]]] : List Tensor)).map
          (fun p => (p.1.log_prob p.2).getD i 0)).sum) :=
  ⟨by decide, by decide, by decide,
    variational_log_prob_sum wTwo [[1, 2, 3], [4, 5, 6]] [[[1, 2], [3, 4]]]
      (by decide) (by decide) (by decide)⟩

/-- Lemma: when every row evaluates, `StanModel._py_log_prob` returns one
entry per row, in row order. -/
lemma stanPyLogProb_ok (e : StanEngine) (ws : Batch)
    (hws : ∀ w ∈ ws, (stanRowVal e w).isSome) :
    ∃ r, stanPyLogProb e ws = some r ∧ r.length = ws.length ∧
      ∀ s, s < ws.length → stanRowVal e (ws.getD s []) = some (r.getD s 0) := by
  induction ws with
  | nil => exact ⟨[], rfl, rfl, fun s hs => absurd hs (Nat.not_lt_zero s)⟩
  | cons w ws2 ih =>
    have hw : (stanRowVal e w).isSome := hws w (by simp)
    obtain ⟨vw, hvw⟩ := Option.isSome_iff_exists.mp hw
    obtain ⟨r, hr, hlen, hidx⟩ := ih (fun x hx => hws x (by simp [hx]))
    refine ⟨vw :: r, ?_, by simp [hlen], fun s hs => ?_⟩
    · rw [stanPyLogProb, hvw, hr]
    · cases s with
      | zero => simpa using hvw
      | succ s2 => simpa using hidx s2 (by simpa using hs)

/-- Claim C8: both adapters' per-row log-density routine returns a vector of
length exactly S for a batch of S rows, the s-th entry being the log-density
of the s-th input row (for the Stan adapter, provided every row decodes). -/
theorem adapters_batch_log_prob (m : PyMC3Model) (zs : Batch)
    (e : StanEngine) (ws : Batch)
    (hws : ∀ w ∈ ws, (stanRowVal e w).isSome) :
    (m.py_log_prob zs).length = zs.length ∧
    (∀ s, s < zs.length → (m.py_log_prob zs).getD s 0 = m.logp (zs.getD s [])) ∧
    (∃ r, stanPyLogProb e ws = some r ∧ r.length = ws.length ∧
      ∀ s, s < ws.length → stanRowVal e (ws.getD s []) = some (r.getD s 0)) := by
  refine ⟨?_, fun s hs => ?_, stanPyLogProb_ok e ws hws⟩
  · rw [PyMC3Model.py_log_prob, List.length_map, List.length_range]
  · rw [PyMC3Model.py_log_prob, List.getD_eq_getElem?_getD, List.getElem?_map,
      List.getElem?_range hs]
    rfl

/-- Concrete PyMC3 adapter and Stan engine for the batch-shape witness. -/
def mPy : PyMC3Model :=
  { num_vars := 2, logp := fun z => z.sum }

def eVec : StanEngine :=
  { par_dims := [[], [2]], model_pars := ["a", "b"],
    unconstrain_pars := fun d => (d.map Prod.snd).flatten,
    stan_log_prob := fun v _ => v.sum }

/-- Witness for C8 on concrete two-row batches for both adapters. -/
theorem adapters_batch_log_prob_witness :
    (∀ w ∈ ([[1, 2, 3], [4, 5, 6]] : Batch), (stanRowVal eVec w).isSome) ∧
    ((mPy.py_log_prob [[1, 2], [3, 4]]).length = ([[1, 2], [3, 4]] : Batch).length ∧
     (∀ s, s < ([[1, 2], [3, 4]] : Batch).length →
       (mPy.py_log_prob [[1, 2], [3, 4]]).getD s 0 =
         mPy.logp (([[1, 2], [3, 4]] : Batch).getD s [])) ∧
     (∃ r, stanPyLogProb eVec [[1, 2, 3], [4, 5, 6]] = some r ∧
       r.length = ([[1, 2, 3], [4, 5, 6]] : Batch).length ∧
       ∀ s, s < ([[1, 2, 3], [4, 5, 6]] : Batch).length →
         stanRowVal eVec (([[1, 2, 3], [4, 5, 6]] : Batch).getD s []) =
           some (r.getD s 0))) :=
  ⟨by decide, adapters_batch_log_prob mPy [[1, 2], [3, 4]] eVec
    [[1, 2, 3], [4, 5, 6]] (by decide)⟩

/-- Lemma: a dimension list of length at most one with a non-zero sum is the
singleton of its sum. -/
lemma dim_singleton_of_sum_ne (dim : List Nat) (h1 : dim.length ≤ 1)
    (h2 : dim.sum ≠ 0) : dim = [dim.sum] := by
  cases dim with
  | nil => simp at h2
  | cons a rest =>
    cases rest with
    | nil => simp
    | cons b rest2 => simp at h1

/-- Unfolding lemma: the decode step on a parameter whose declared dimensions
sum to zero (the `float(z[idx])` branch). -/
lemma stanDecodeGo_cons_scalar (dim : List Nat) (par : String)
    (rest : List (List Nat × String)) (z : Row) (idx : Nat) (h : dim.sum = 0) :
    stanDecodeGo ((dim, par) :: rest) z idx =
      if hlt : idx < z.length then
        (stanDecodeGo rest z (idx + 1)).map (fun d => (par, [z.get ⟨idx, hlt⟩]) :: d)
      else
        none := by
  rw [stanDecodeGo]
  simp [h]

/-- Unfolding lemma: the decode step on a parameter whose declared dimensions
have a non-zero sum (the slice-and-reshape branch). -/
lemma stanDecodeGo_cons_vec (dim : List Nat) (par : String)
    (rest : List (List Nat × String)) (z : Row) (idx : Nat) (h : ¬ dim.sum = 0) :
    stanDecodeGo ((dim, par) :: rest) z idx =
      if ((z.drop idx).take dim.sum).length = dim.prod then
        (stanDecodeGo rest z (idx + dim.sum)).map
          (fun d => (par, (z.drop idx).take dim.sum) :: d)
      else
        none := by
  rw [stanDecodeGo]
  simp [h]

/-- Lemma: the `z_dict` construction starting at a reachable index succeeds
exactly when the row still holds the declared number of entries from that
index on, for parameters declared with at most one dimension. -/
lemma decodeGo_isSome (ps : List (List Nat × String)) (z : Row) (idx : Nat)
    (hidx : idx ≤ z.length)
    (h1d : ∀ p ∈ ps, p.1.length ≤ 1) :
    (stanDecodeGo ps z idx).isSome ↔
      idx + (ps.map (fun p => parSize p.1)).sum ≤ z.length := by
  induction ps generalizing idx with
  | nil => simpa [stanDecodeGo] using hidx
  | cons p rest ih =>
    obtain ⟨dim, par⟩ := p
    have hd1 : dim.length ≤ 1 := h1d (dim, par) (by simp)
    have hrest : ∀ q ∈ rest, q.1.length ≤ 1 := fun q hq => h1d q (by simp [hq])
    by_cases hdim : dim.sum = 0
    · have hsize : parSize dim = 1 := by rw [parSize, if_neg (by simp [hdim])]
      rw [stanDecodeGo_cons_scalar dim par rest z idx hdim]
      by_cases hlt : idx < z.length
      · rw [dif_pos hlt, Option.isSome_map']
        rw [ih (idx + 1) hlt hrest]
        simp only [List.map_cons, List.sum_cons, hsize]
        omega
      · rw [dif_neg hlt]
        refine iff_of_false (by simp) ?_
        simp only [List.map_cons, List.sum_cons, hsize]
        omega
    · have hsing : dim = [dim.sum] := dim_singleton_of_sum_ne dim hd1 hdim
      have hsize : parSize dim = dim.sum := by rw [parSize, if_pos hdim]
      have hprod : dim.prod = dim.sum := by
        conv_lhs => rw [hsing]
        simp
      have hblock : ((z.drop idx).take dim.sum).length = min dim.sum (z.length - idx) := by
        rw [List.length_take, List.length_drop]
      rw [stanDecodeGo_cons_vec dim par rest z idx hdim]
      by_cases hfit : idx + dim.sum ≤ z.length
      · have hcond : ((z.drop idx).take dim.sum).length = dim.prod := by
          rw [hblock, hprod]
          omega
        rw [if_pos hcond, Option.isSome_map']
        rw [ih (idx + dim.sum) hfit hrest]
        simp only [List.map_cons, List.sum_cons, hsize]
        omega
      · have hcond : ¬ ((z.drop idx).take dim.sum).length = dim.prod := by
          rw [hblock, hprod]
          omega
        rw [if_neg hcond]
        refine iff_of_false (by simp) ?_
        simp only [List.map_cons, List.sum_cons, hsize]
        omega

/-- Lemma: when `par_dims` and `model_pars` have equal length, the zipped
per-parameter sizes sum to `stanNumVars`. -/
lemma map_parSize_zip (dims : List (List Nat)) (pars : List String)
    (h : dims.length = pars.length) :
    ((dims.zip pars).map (fun p => parSize p.1)).sum = stanNumVars dims := by
  rw [stanNumVars]
  have hfst : (dims.zip pars).map (fun p => parSize p.1)
      = (((dims.zip pars).map Prod.fst).map parSize) := by
    rw [List.map_map]
    rfl
  rw [hfst, List.map_fst_zip dims pars (le_of_eq h)]

/-- Lemma: one row of `_py_log_prob` evaluates exactly when its `z_dict`
construction succeeds. -/
lemma stanRowVal_isSome_iff (e : StanEngine) (z : Row) :
    (stanRowVal e z).isSome ↔ (stanDecodeRow e.par_dims e.model_pars z).isSome := by
  rw [stanRowVal, Option.isSome_map']

/-- Lemma: the whole `_py_log_prob` call succeeds exactly when every row
evaluates; one failing row makes the whole call fail with no partial
result. -/
lemma stanPyLogProb_isSome (e : StanEngine) (zs : Batch) :
    (stanPyLogProb e zs).isSome ↔ ∀ z ∈ zs, (stanRowVal e z).isSome := by
  induction zs with
  | nil => simp [stanPyLogProb]
  | cons z rest ih =>
    rw [stanPyLogProb]
    constructor
    · intro h x hx
      rcases List.mem_cons.mp hx with rfl | hx2
      · cases hz : stanRowVal e x with
        | none => rw [hz] at h; simp at h
        | some v => simp
      · have hrest : (stanPyLogProb e rest).isSome := by
          cases hz : stanRowVal e z with
          | none => rw [hz] at h; simp at h
          | some v =>
            rw [hz] at h
            cases hr : stanPyLogProb e rest with
            | none => rw [hr] at h; simp at h
            | some l => simp [hr]
        exact (ih.mp hrest) x hx2
    · intro h
      obtain ⟨v, hv⟩ := Option.isSome_iff_exists.mp (h z (by simp))
      obtain ⟨l, hl⟩ := Option.isSome_iff_exists.mp
        (ih.mpr (fun x hx => h x (by simp [hx])))
      rw [hv, hl]
      simp

/-- Claim C2, counterexample: for an engine declaring a scalar and a length-2
vector (declared total 3), `_py_log_prob` happily evaluates a row of length 4
— the extra trailing entry is never read — instead of failing. -/
theorem stan_row_extra_entries_counterexample :
    stanNumVars eVec.par_dims = 3 ∧
    (([1, 2, 3, 4] : Row).length ≠ stanNumVars eVec.par_dims) ∧
    (stanPyLogProb eVec [[1, 2, 3, 4]]).isSome = true := by
  refine ⟨by decide, by decide, by decide⟩

/-- Claim C2, amended: for an initialized Stan adapter whose parameters each
declare at most one dimension (scalars and vectors, the shapes `sum(dim)` can
faithfully index), `_py_log_prob` fails exactly on a batch containing a row
SHORTER than the sum of declared parameter sizes; rows of the declared length
or longer all evaluate, a longer row silently ignoring its extra trailing
entries rather than failing. -/
theorem stan_row_length_contract (e : StanEngine)
    (hlen : e.par_dims.length = e.model_pars.length)
    (h1d : ∀ d ∈ e.par_dims, d.length ≤ 1)
    (zs : Batch) :
    (stanPyLogProb e zs).isSome ↔ ∀ z ∈ zs, stanNumVars e.par_dims ≤ z.length := by
  rw [stanPyLogProb_isSome]
  constructor
  · intro h z hz
    have := (stanRowVal_isSome_iff e z).mp (h z hz)
    rw [stanDecodeRow, decodeGo_isSome _ z 0 (Nat.zero_le _)
      (fun p hp => h1d p.1 (List.of_mem_zip hp).1), map_parSize_zip _ _ hlen] at this
    omega
  · intro h z hz
    rw [stanRowVal_isSome_iff, stanDecodeRow, decodeGo_isSome _ z 0 (Nat.zero_le _)
      (fun p hp => h1d p.1 (List.of_mem_zip hp).1), map_parSize_zip _ _ hlen]
    have := h z hz
    omega

/-- Witness for the amended C2: with declared total 3, a batch holding a
length-3 and a length-5 row succeeds, while prepending a length-2 row makes
the call fail. -/
theorem stan_row_length_contract_witness :
    eVec.par_dims.length = eVec.model_pars.length ∧
    (∀ d ∈ eVec.par_dims, d.length ≤ 1) ∧
    ((stanPyLogProb eVec [[1, 2, 3], [4, 5, 6, 7, 8]]).isSome ↔
      ∀ z ∈ ([[1, 2, 3], [4, 5, 6, 7, 8]] : Batch), stanNumVars eVec.par_dims ≤ z.length) :=
  ⟨rfl, by decide,
    stan_row_length_contract eVec rfl (by decide) [[1, 2, 3], [4, 5, 6, 7, 8]]⟩

end Edward
